import Mathlib

/-!
Shallow embedding of the versioned-artifact resolution and caching procedure
of the bootstrap modules of this repository.

The repository ships two near-duplicate bootstrap variants:

* `run` / `execute_rust_binary_action`, which receives one fixed command
  string and names the binary after the manifest's package name; and
* `invokeWith` / `executeRustBinaryAction` (the bootstrap TypeScript module
  under the workflow directory), which receives an argument-building
  function and names the binary after the manifest's first declared binary.

External collaborators (the Node `url` parser, `path.join`, the
`@actions/tool-cache` operations, `@actions/core` input accessors and
`setFailed`, and the process spawner) are modelled as explicit data: the
environment `Env` carries the current platform, the parsed manifest, the
tool-cache contents and oracles giving the results of the download,
extraction, cache-registration and process-execution primitives, and
every such primitive that runs is recorded as an `Effect` in a trace.
-/

/-- A value thrown (rejected) by the JavaScript code: either an `Error`
instance carrying a message, or any other thrown value (for example a
thrown string), which is not an `Error` instance. -/
inductive Thrown where
  | err : String → Thrown
  | nonError : String → Thrown
deriving DecidableEq, Repr

/-- Observable side effects of one invocation, in the order they occur:
reading and parsing the manifest file, downloading a release archive from a
URL, extracting a tar archive to a destination, registering a file into the
tool cache under a name, key and version, and spawning the resolved binary
with an argument list. -/
inductive Effect where
  | readManifest : Effect
  | download : String → Effect
  | extractTar : String → String → Effect
  | cacheFile : String → String → String → String → Effect
  | exec : String → List String → Effect
deriving DecidableEq, Repr

/-- The parsed `Cargo.toml` manifest fields destructured by the bootstrap
code: `name`, `version` and `repository` of the `package` table (the
`run` variant destructures all three from `toml.package`), and `binName`,
the `name` of the first entry of the `bin` array (`toml.bin[0].name`,
which the `invokeWith` variant uses instead of the package name). -/
structure Manifest where
  name : String
  version : String
  repository : String
  binName : String
deriving DecidableEq, Repr

/-- One tool-cache entry: a (tool name, version) key mapped to the cached
directory path. -/
abbrev CacheEntry := (String × String) × String

/-- The environment of one invocation: the process platform, the
`RUNNER_TEMP` directory, the outcome of reading and parsing the manifest
(an `Error` on a manifest read/parse failure), the current tool-cache
contents, and oracles for the results of the fallible external primitives
(download, tar extraction, cache registration, process execution). -/
structure Env where
  platform : String
  runnerTemp : String
  manifest : Except Thrown Manifest
  cache : List CacheEntry
  downloadTool : String → Except Thrown String
  extractTar : String → String → Except Thrown String
  cacheFile : String → String → String → String → Except Thrown String
  execBin : String → List String → Except Thrown Unit

deriving instance DecidableEq for Except

/-- The observable outcome of one invocation: the trace of effects that
ran, the tool-cache contents afterwards, and the result (success, or the
thrown value that rejected the underlying async action). -/
structure Outcome where
  trace : List Effect
  cache : List CacheEntry
  result : Except Thrown Unit
deriving DecidableEq, Repr

/-- Model of the scan of Node `url.parse` for the separator between scheme
and authority: drops characters up to and including the first occurrence
of two consecutive slashes. -/
def afterSchemeSep : List Char → Option (List Char)
  | [] => none
  | [_] => none
  | c1 :: c2 :: rest =>
    if c1 = '/' ∧ c2 = '/' then some rest else afterSchemeSep (c2 :: rest)

/-- Keeps the portion of the character list from its first slash on;
empty when there is no slash. -/
def fromFirstSlash : List Char → List Char
  | [] => []
  | c :: rest => if c = '/' then c :: rest else fromFirstSlash rest

/-- Model of the `pathname` field of Node `url.parse` for the
`scheme://host/path` URLs this code receives: the portion of the URL from
the first slash after the scheme separator on (when no scheme separator is
present, from the first slash of the whole input on). -/
def pathnameChars (l : List Char) : List Char :=
  match afterSchemeSep l with
  | some rest => fromFirstSlash rest
  | none => fromFirstSlash l

/-- Model of the JavaScript `replace` of the anchored pattern matching one
leading slash with the empty string: removes the first character when it
is a slash. -/
def stripLeadingSlash : List Char → List Char
  | '/' :: rest => rest
  | l => l

/-- Model of the JavaScript `replace` of the anchored pattern matching a
trailing `.git` with the empty string: removes the final four characters
when they are `.git`. -/
def stripDotGit (l : List Char) : List Char :=
  if l.reverse.take 4 = ['t', 'i', 'g', '.'] then (l.reverse.drop 4).reverse else l

/-- The `githubOrgAndName` computation of the bootstrap: the `pathname` of
the parsed repository URL with the leading slash removed and a trailing
`.git` suffix removed. -/
def githubOrgAndNameOf (repository : String) : String :=
  ⟨stripDotGit (stripLeadingSlash (pathnameChars repository.data))⟩

/-- Model of Node `path.join` for the already-normalised segment pairs the
bootstrap joins: the two segments separated by one slash. -/
def joinPath (a b : String) : String :=
  a ++ "/" ++ b

/-- Model of `find` of `@actions/tool-cache`: returns the cached directory
registered under the given tool name and version, or the empty string when
there is none. -/
def find : List CacheEntry → String → String → String
  | [], _, _ => ""
  | ((k, v), p) :: rest, toolName, version =>
    if k = toolName ∧ v = version then p else find rest toolName version

/-- The platform-adjusted binary filename of the bootstrap: the base name
with `.exe` appended when the platform is `win32`, the bare base name
otherwise. -/
def binaryNameFor (platform name : String) : String :=
  if platform = "win32" then name ++ ".exe" else name

/-- The release download URL template literal of the bootstrap. -/
def releaseUrlFor (githubOrgAndName version name platform : String) : String :=
  "https://github.com/" ++ githubOrgAndName ++ "/releases/download/v" ++ version
    ++ "/" ++ name ++ "-v" ++ version ++ "-" ++ platform ++ "-x64.tar.gz"

/-- Translation of `execute_rust_binary_action` of the single-command
bootstrap variant: check the platform, read and parse the manifest,
derive the organisation/repository key, look the key up in the tool
cache, on a miss download the release archive, extract it into
`RUNNER_TEMP`, locate the platform-adjusted binary and register it into
the cache under the same key, then execute the cached directory joined
with the base package name, passing the single fixed command string. -/
def execute_rust_binary_action (env : Env) (rustCommand : String) : Outcome :=
  if env.platform ≠ "win32" ∧ env.platform ≠ "darwin" ∧ env.platform ≠ "linux" then
    ⟨[], env.cache, .error (.err ("Unsupported platform: " ++ env.platform))⟩
  else
    match env.manifest with
    | .error e => ⟨[.readManifest], env.cache, .error e⟩
    | .ok pkg =>
      let githubOrgAndName := githubOrgAndNameOf pkg.repository
      let cachedPath := find env.cache githubOrgAndName pkg.version
      if cachedPath = "" then
        let releaseUrl := releaseUrlFor githubOrgAndName pkg.version pkg.name env.platform
        match env.downloadTool releaseUrl with
        | .error e => ⟨[.readManifest, .download releaseUrl], env.cache, .error e⟩
        | .ok downloadPath =>
          match env.extractTar downloadPath env.runnerTemp with
          | .error e =>
            ⟨[.readManifest, .download releaseUrl,
              .extractTar downloadPath env.runnerTemp], env.cache, .error e⟩
          | .ok extractPath =>
            let binaryName := binaryNameFor env.platform pkg.name
            let extractedFile := joinPath extractPath binaryName
            match env.cacheFile extractedFile binaryName githubOrgAndName pkg.version with
            | .error e =>
              ⟨[.readManifest, .download releaseUrl,
                .extractTar downloadPath env.runnerTemp,
                .cacheFile extractedFile binaryName githubOrgAndName pkg.version],
               env.cache, .error e⟩
            | .ok newCachedPath =>
              let cache' := ((githubOrgAndName, pkg.version), newCachedPath) :: env.cache
              let rustBinary := joinPath newCachedPath pkg.name
              ⟨[.readManifest, .download releaseUrl,
                .extractTar downloadPath env.runnerTemp,
                .cacheFile extractedFile binaryName githubOrgAndName pkg.version,
                .exec rustBinary [rustCommand]],
               cache', env.execBin rustBinary [rustCommand]⟩
      else
        let rustBinary := joinPath cachedPath pkg.name
        ⟨[.readManifest, .exec rustBinary [rustCommand]], env.cache,
         env.execBin rustBinary [rustCommand]⟩

/-- Translation of `executeRustBinaryAction` of the bootstrap TypeScript
module (under the repository's workflow directory): check the platform,
read and parse the manifest, take the binary name from the first declared
binary, compute the platform-adjusted binary filename, derive the
organisation/repository key, build the release URL from the binary name,
look the key up in the tool cache, on a miss download the release archive,
extract it into `RUNNER_TEMP`, register the extracted platform-adjusted
file into the cache under the same key, then join the cached directory
with the bare binary name, invoke the caller's argument-building function
(whose required-input accessor calls may throw), and spawn the joined path
with the produced argument list. The argument-building function passed by
the call site is modelled by the `Except` value `getArgs` its invocation
produces: an argument list, or the value it throws. -/
def executeRustBinaryAction (env : Env) (getArgs : Except Thrown (List String)) : Outcome :=
  if env.platform ≠ "win32" ∧ env.platform ≠ "darwin" ∧ env.platform ≠ "linux" then
    ⟨[], env.cache, .error (.err ("Unsupported platform: " ++ env.platform))⟩
  else
    match env.manifest with
    | .error e => ⟨[.readManifest], env.cache, .error e⟩
    | .ok pkg =>
      let tempDirectory := env.runnerTemp
      let name := pkg.binName
      let binaryName := binaryNameFor env.platform name
      let githubOrgAndName := githubOrgAndNameOf pkg.repository
      let releaseUrl := releaseUrlFor githubOrgAndName pkg.version name env.platform
      let cachedPath := find env.cache githubOrgAndName pkg.version
      if cachedPath = "" then
        match env.downloadTool releaseUrl with
        | .error e => ⟨[.readManifest, .download releaseUrl], env.cache, .error e⟩
        | .ok downloadPath =>
          match env.extractTar downloadPath tempDirectory with
          | .error e =>
            ⟨[.readManifest, .download releaseUrl,
              .extractTar downloadPath tempDirectory], env.cache, .error e⟩
          | .ok extractPath =>
            let extractedFile := joinPath extractPath binaryName
            match env.cacheFile extractedFile binaryName githubOrgAndName pkg.version with
            | .error e =>
              ⟨[.readManifest, .download releaseUrl,
                .extractTar downloadPath tempDirectory,
                .cacheFile extractedFile binaryName githubOrgAndName pkg.version],
               env.cache, .error e⟩
            | .ok newCachedPath =>
              let cache' := ((githubOrgAndName, pkg.version), newCachedPath) :: env.cache
              let rustBinary := joinPath newCachedPath name
              match getArgs with
              | .error e =>
                ⟨[.readManifest, .download releaseUrl,
                  .extractTar downloadPath tempDirectory,
                  .cacheFile extractedFile binaryName githubOrgAndName pkg.version],
                 cache', .error e⟩
              | .ok args =>
                ⟨[.readManifest, .download releaseUrl,
                  .extractTar downloadPath tempDirectory,
                  .cacheFile extractedFile binaryName githubOrgAndName pkg.version,
                  .exec rustBinary args],
                 cache', env.execBin rustBinary args⟩
      else
        let rustBinary := joinPath cachedPath name
        match getArgs with
        | .error e => ⟨[.readManifest], env.cache, .error e⟩
        | .ok args =>
          ⟨[.readManifest, .exec rustBinary args], env.cache,
           env.execBin rustBinary args⟩

/-- The catch handler shared by both bootstrap entry points: when the
underlying async action rejects with an `Error` instance, report its
message through `setFailed`; any other rejection value is ignored. The
returned option is the reported failure message, if any. -/
def catchBoundary : Except Thrown Unit → Option String
  | .ok _ => none
  | .error (.err msg) => some msg
  | .error (.nonError _) => none

/-- Translation of `run` of the single-command bootstrap variant: run
`execute_rust_binary_action` once and apply the catch handler to its
result. Returns the outcome together with the reported failure message,
if any. -/
def run (env : Env) (rustCommand : String) : Outcome × Option String :=
  let out := execute_rust_binary_action env rustCommand
  (out, catchBoundary out.result)

/-- Translation of `invokeWith` of the bootstrap TypeScript module: run
`executeRustBinaryAction` once and catch any rejection at this single
top-level boundary, reporting an Error rejection's message through
`setFailed`. -/
def invokeWith (env : Env) (getArgs : Except Thrown (List String)) : Outcome × Option String :=
  let out := executeRustBinaryAction env getArgs
  (out, catchBoundary out.result)

/-- Model of `getInput` of `@actions/core` over a list of provided
(name, value) input pairs: a missing required input throws an `Error`
whose message names the input; a missing optional input yields the empty
string. -/
def getInput (inputs : List (String × String)) (name : String) (required : Bool) :
    Except Thrown String :=
  match inputs.lookup name with
  | some v => .ok v
  | none =>
    if required then .error (.err ("Input required and not supplied: " ++ name))
    else .ok ""

/-- Translation of the argument-building function of the `prepare` action
call site in the source tree: the literal `prepare` and `--bump`, the
required input `bump`, then the optional input `project_dir`, evaluated in
order. -/
def prepareArgs (inputs : List (String × String)) : Except Thrown (List String) :=
  match getInput inputs "bump" true with
  | .error e => .error e
  | .ok bump =>
    match getInput inputs "project_dir" false with
    | .error e => .error e
    | .ok projectDir => .ok ["prepare", "--bump", bump, projectDir]

/-- Recognises the download effect. -/
def Effect.isDownload : Effect → Bool
  | .download _ => true
  | _ => false

/-- Recognises the tar-extraction effect. -/
def Effect.isExtraction : Effect → Bool
  | .extractTar _ _ => true
  | _ => false

/-- Recognises the cache-registration effect. -/
def Effect.isCacheRegistration : Effect → Bool
  | .cacheFile _ _ _ _ => true
  | _ => false

/-- Replaces the tool-cache contents of an environment, leaving every
other field unchanged; used to run a subsequent invocation against the
cache state a previous invocation left behind. -/
def withCache (env : Env) (c : List CacheEntry) : Env :=
  ⟨env.platform, env.runnerTemp, env.manifest, c,
   env.downloadTool, env.extractTar, env.cacheFile, env.execBin⟩

/-- The manifest of the worked scenario of the spec: the single declared
binary carries the same name as the package. -/
def acmeManifest : Manifest :=
  ⟨"mycli", "1.2.3", "https://github.com/acme/mycli.git", "mycli"⟩

/-- A linux environment with an empty tool cache whose external
primitives all succeed. -/
def envMiss : Env :=
  ⟨"linux", "/tmp", .ok acmeManifest, [],
   fun _ => .ok "/tmp/downloaded.tar.gz",
   fun _ _ => .ok "/tmp",
   fun _ _ _ _ => .ok "/opt/toolcache/mycli/1.2.3",
   fun _ _ => .ok ()⟩

/-- A linux environment whose tool cache is already populated for the
scenario key. -/
def envHit : Env :=
  ⟨"linux", "/tmp", .ok acmeManifest,
   [(("acme/mycli", "1.2.3"), "/opt/toolcache/mycli/1.2.3")],
   fun _ => .ok "/tmp/downloaded.tar.gz",
   fun _ _ => .ok "/tmp",
   fun _ _ _ _ => .ok "/opt/toolcache/mycli/1.2.3",
   fun _ _ => .ok ()⟩

/-- A Windows environment with an empty tool cache whose external
primitives all succeed. -/
def envWin : Env :=
  ⟨"win32", "/tmp", .ok acmeManifest, [],
   fun _ => .ok "/tmp/downloaded.tar.gz",
   fun _ _ => .ok "/tmp",
   fun _ _ _ _ => .ok "/opt/toolcache/mycli/1.2.3",
   fun _ _ => .ok ()⟩

/-- An environment whose platform is none of the three supported
values. -/
def envOther : Env :=
  ⟨"freebsd", "/tmp", .ok acmeManifest, [],
   fun _ => .ok "/tmp/downloaded.tar.gz",
   fun _ _ => .ok "/tmp",
   fun _ _ _ _ => .ok "/opt/toolcache/mycli/1.2.3",
   fun _ _ => .ok ()⟩

/-- A linux environment whose download primitive rejects with a value
that is not an Error instance. -/
def envNonError : Env :=
  ⟨"linux", "/tmp", .ok acmeManifest, [],
   fun _ => .error (.nonError "string rejection"),
   fun _ _ => .ok "/tmp",
   fun _ _ _ _ => .ok "/opt/toolcache/mycli/1.2.3",
   fun _ _ => .ok ()⟩

/-! Helper lemmas shared by the claim theorems. -/

theorem not_unsupported (p : String)
    (h : p = "win32" ∨ p = "darwin" ∨ p = "linux") :
    ¬(p ≠ "win32" ∧ p ≠ "darwin" ∧ p ≠ "linux") := by
  rcases h with h | h | h <;> simp [h]

theorem append_exe_ne (n : String) : n ++ ".exe" ≠ n := by
  intro h
  have hlen := congrArg String.length h
  have h4 : String.length ".exe" = 4 := rfl
  simp only [String.length_append] at hlen
  omega

theorem joinPath_exe_ne (s n : String) :
    joinPath s (n ++ ".exe") ≠ joinPath s n := by
  intro h
  have hlen := congrArg String.length h
  have h4 : String.length ".exe" = 4 := rfl
  simp only [joinPath, String.length_append] at hlen
  omega

theorem execute_hit_eq (env : Env) (cmd : String) (pkg : Manifest) (p : String)
    (hplat : env.platform = "win32" ∨ env.platform = "darwin" ∨ env.platform = "linux")
    (hm : env.manifest = .ok pkg)
    (hfind : find env.cache (githubOrgAndNameOf pkg.repository) pkg.version = p)
    (hp : p ≠ "") :
    execute_rust_binary_action env cmd =
      ⟨[.readManifest, .exec (joinPath p pkg.name) [cmd]], env.cache,
       env.execBin (joinPath p pkg.name) [cmd]⟩ := by
  unfold execute_rust_binary_action
  rw [if_neg (not_unsupported env.platform hplat), hm]
  simp only [hfind, if_neg hp]

theorem execute_miss_eq (env : Env) (cmd : String) (pkg : Manifest) (dp ep cp : String)
    (hplat : env.platform = "win32" ∨ env.platform = "darwin" ∨ env.platform = "linux")
    (hm : env.manifest = .ok pkg)
    (hfind : find env.cache (githubOrgAndNameOf pkg.repository) pkg.version = "")
    (hdl : env.downloadTool
      (releaseUrlFor (githubOrgAndNameOf pkg.repository) pkg.version pkg.name env.platform)
      = .ok dp)
    (hex : env.extractTar dp env.runnerTemp = .ok ep)
    (hcf : env.cacheFile (joinPath ep (binaryNameFor env.platform pkg.name))
      (binaryNameFor env.platform pkg.name) (githubOrgAndNameOf pkg.repository) pkg.version
      = .ok cp) :
    execute_rust_binary_action env cmd =
      ⟨[.readManifest,
        .download (releaseUrlFor (githubOrgAndNameOf pkg.repository) pkg.version pkg.name
          env.platform),
        .extractTar dp env.runnerTemp,
        .cacheFile (joinPath ep (binaryNameFor env.platform pkg.name))
          (binaryNameFor env.platform pkg.name) (githubOrgAndNameOf pkg.repository) pkg.version,
        .exec (joinPath cp pkg.name) [cmd]],
       ((githubOrgAndNameOf pkg.repository, pkg.version), cp) :: env.cache,
       env.execBin (joinPath cp pkg.name) [cmd]⟩ := by
  unfold execute_rust_binary_action
  rw [if_neg (not_unsupported env.platform hplat), hm]
  simp only [hfind, if_pos rfl, hdl, hex, hcf, if_true]

theorem rba_hit_eq (env : Env) (args : List String) (pkg : Manifest) (p : String)
    (hplat : env.platform = "win32" ∨ env.platform = "darwin" ∨ env.platform = "linux")
    (hm : env.manifest = .ok pkg)
    (hfind : find env.cache (githubOrgAndNameOf pkg.repository) pkg.version = p)
    (hp : p ≠ "") :
    executeRustBinaryAction env (.ok args) =
      ⟨[.readManifest, .exec (joinPath p pkg.binName) args], env.cache,
       env.execBin (joinPath p pkg.binName) args⟩ := by
  unfold executeRustBinaryAction
  rw [if_neg (not_unsupported env.platform hplat), hm]
  simp only [hfind, if_neg hp]

theorem rba_hit_err_eq (env : Env) (e : Thrown) (pkg : Manifest) (p : String)
    (hplat : env.platform = "win32" ∨ env.platform = "darwin" ∨ env.platform = "linux")
    (hm : env.manifest = .ok pkg)
    (hfind : find env.cache (githubOrgAndNameOf pkg.repository) pkg.version = p)
    (hp : p ≠ "") :
    executeRustBinaryAction env (.error e) =
      ⟨[.readManifest], env.cache, .error e⟩ := by
  unfold executeRustBinaryAction
  rw [if_neg (not_unsupported env.platform hplat), hm]
  simp only [hfind, if_neg hp]

theorem rba_miss_eq (env : Env) (args : List String) (pkg : Manifest) (dp ep cp : String)
    (hplat : env.platform = "win32" ∨ env.platform = "darwin" ∨ env.platform = "linux")
    (hm : env.manifest = .ok pkg)
    (hfind : find env.cache (githubOrgAndNameOf pkg.repository) pkg.version = "")
    (hdl : env.downloadTool
      (releaseUrlFor (githubOrgAndNameOf pkg.repository) pkg.version pkg.binName env.platform)
      = .ok dp)
    (hex : env.extractTar dp env.runnerTemp = .ok ep)
    (hcf : env.cacheFile (joinPath ep (binaryNameFor env.platform pkg.binName))
      (binaryNameFor env.platform pkg.binName) (githubOrgAndNameOf pkg.repository) pkg.version
      = .ok cp) :
    executeRustBinaryAction env (.ok args) =
      ⟨[.readManifest,
        .download (releaseUrlFor (githubOrgAndNameOf pkg.repository) pkg.version pkg.binName
          env.platform),
        .extractTar dp env.runnerTemp,
        .cacheFile (joinPath ep (binaryNameFor env.platform pkg.binName))
          (binaryNameFor env.platform pkg.binName) (githubOrgAndNameOf pkg.repository)
          pkg.version,
        .exec (joinPath cp pkg.binName) args],
       ((githubOrgAndNameOf pkg.repository, pkg.version), cp) :: env.cache,
       env.execBin (joinPath cp pkg.binName) args⟩ := by
  unfold executeRustBinaryAction
  rw [if_neg (not_unsupported env.platform hplat), hm]
  simp only [hfind, if_pos rfl, hdl, hex, hcf, if_true]

theorem afterSchemeSep_https (rest : List Char) :
    afterSchemeSep ("https://".data ++ rest) = some rest := rfl

theorem fromFirstSlash_no_slash (l : List Char) (tail : List Char)
    (h : '/' ∉ l) : fromFirstSlash (l ++ '/' :: tail) = '/' :: tail := by
  induction l with
  | nil => simp [fromFirstSlash]
  | cons c cs ih =>
    have hc : ¬(c = '/') := fun e => h (e ▸ List.mem_cons_self c cs)
    simp only [List.cons_append, fromFirstSlash, if_neg hc]
    exact ih fun m => h (List.mem_cons_of_mem c m)

theorem stripDotGit_suffix (m : List Char) :
    stripDotGit (m ++ ['.', 'g', 'i', 't']) = m := by
  unfold stripDotGit
  rw [List.reverse_append]
  simp

theorem stripDotGit_no_suffix (l : List Char)
    (h : ¬ (['.', 'g', 'i', 't'] <:+ l)) : stripDotGit l = l := by
  unfold stripDotGit
  rw [if_neg]
  intro htake
  apply h
  rw [← List.reverse_prefix]
  have hpre := List.take_prefix 4 l.reverse
  rw [htake] at hpre
  simpa using hpre

theorem pathnameChars_https (hostL pathL : List Char) (hh : '/' ∉ hostL) :
    pathnameChars ("https://".data ++ (hostL ++ '/' :: pathL)) = '/' :: pathL := by
  unfold pathnameChars
  rw [afterSchemeSep_https]
  exact fromFirstSlash_no_slash hostL pathL hh

/-- Claim C6: for every invocation whose operating-system identifier is none of
win32, darwin or linux, both bootstrap variants fail immediately with an
unsupported-platform error naming the platform, with an empty effect trace
(no network operation, no filesystem operation including no manifest read,
and no process spawn) and an unchanged cache. -/
theorem unsupported_platform_fails_immediately (env : Env) (cmd : String)
    (getArgs : Except Thrown (List String))
    (h1 : env.platform ≠ "win32") (h2 : env.platform ≠ "darwin")
    (h3 : env.platform ≠ "linux") :
    execute_rust_binary_action env cmd =
      ⟨[], env.cache, .error (.err ("Unsupported platform: " ++ env.platform))⟩
    ∧ executeRustBinaryAction env getArgs =
      ⟨[], env.cache, .error (.err ("Unsupported platform: " ++ env.platform))⟩ := by
  constructor
  · unfold execute_rust_binary_action
    rw [if_pos ⟨h1, h2, h3⟩]
  · unfold executeRustBinaryAction
    rw [if_pos ⟨h1, h2, h3⟩]

theorem unsupported_platform_fails_immediately_witness :
    execute_rust_binary_action envOther "prepare" =
      ⟨[], envOther.cache, .error (.err ("Unsupported platform: " ++ envOther.platform))⟩
    ∧ executeRustBinaryAction envOther (.ok []) =
      ⟨[], envOther.cache, .error (.err ("Unsupported platform: " ++ envOther.platform))⟩ :=
  unsupported_platform_fails_immediately envOther "prepare" (.ok [])
    (by decide) (by decide) (by decide)

/-- Claim C7: for every supported platform value, the computed platform-specific
binary filename equals the base name with `.exe` appended if and only if
the platform is win32; for darwin and linux it equals the bare name. -/
theorem binary_name_exe_iff_windows (p n : String)
    (hp : p = "win32" ∨ p = "darwin" ∨ p = "linux") :
    (binaryNameFor p n = n ++ ".exe" ↔ p = "win32")
    ∧ ((p = "darwin" ∨ p = "linux") → binaryNameFor p n = n) := by
  constructor
  · constructor
    · intro h
      by_contra hw
      rw [binaryNameFor, if_neg hw] at h
      exact append_exe_ne n h.symm
    · intro h
      rw [binaryNameFor, if_pos h]
  · intro h
    have hw : ¬(p = "win32") := by
      rcases h with h | h <;> rw [h] <;> decide
    rw [binaryNameFor, if_neg hw]

theorem binary_name_exe_iff_windows_witness :
    (binaryNameFor "win32" "mycli" = "mycli" ++ ".exe" ↔ "win32" = "win32")
    ∧ (("win32" = "darwin" ∨ "win32" = "linux") → binaryNameFor "win32" "mycli" = "mycli") :=
  binary_name_exe_iff_windows "win32" "mycli" (Or.inl rfl)

/-- Claim C8: for every well-formed repository URL of the form
https://host/org/repo or https://host/org/repo.git (host without a slash,
and in the bare form a path not itself ending in .git), the derived
organisation/repository identifier equals org/repo exactly: the URL path
with the leading slash removed and a trailing .git suffix removed. -/
theorem orgrepo_derivation (host org repo : String) (hh : '/' ∉ host.data)
    (hg : ¬ (['.', 'g', 'i', 't'] <:+ (org ++ "/" ++ repo).data)) :
    githubOrgAndNameOf ("https://" ++ host ++ "/" ++ org ++ "/" ++ repo) = org ++ "/" ++ repo
    ∧ githubOrgAndNameOf ("https://" ++ host ++ "/" ++ org ++ "/" ++ repo ++ ".git")
        = org ++ "/" ++ repo := by
  have horg : (org ++ "/" ++ repo).data = org.data ++ '/' :: repo.data := by
    simp [String.data_append]
  have h1 : ("https://" ++ host ++ "/" ++ org ++ "/" ++ repo).data
      = "https://".data ++ (host.data ++ '/' :: (org.data ++ '/' :: repo.data)) := by
    simp [String.data_append]
  have h2 : ("https://" ++ host ++ "/" ++ org ++ "/" ++ repo ++ ".git").data
      = "https://".data
        ++ (host.data ++ '/' :: ((org.data ++ '/' :: repo.data) ++ ['.', 'g', 'i', 't'])) := by
    simp [String.data_append]
  rw [horg] at hg
  constructor
  · unfold githubOrgAndNameOf
    rw [h1, pathnameChars_https _ _ hh]
    show (⟨stripDotGit (org.data ++ '/' :: repo.data)⟩ : String) = org ++ "/" ++ repo
    rw [stripDotGit_no_suffix _ hg]
    apply String.ext
    simp [String.data_append]
  · unfold githubOrgAndNameOf
    rw [h2, pathnameChars_https _ _ hh]
    show (⟨stripDotGit ((org.data ++ '/' :: repo.data) ++ ['.', 'g', 'i', 't'])⟩ : String)
      = org ++ "/" ++ repo
    rw [stripDotGit_suffix]
    apply String.ext
    simp [String.data_append]

theorem orgrepo_derivation_witness :
    githubOrgAndNameOf ("https://" ++ "github.com" ++ "/" ++ "acme" ++ "/" ++ "mycli")
        = "acme" ++ "/" ++ "mycli"
    ∧ githubOrgAndNameOf ("https://" ++ "github.com" ++ "/" ++ "acme" ++ "/" ++ "mycli" ++ ".git")
        = "acme" ++ "/" ++ "mycli" :=
  orgrepo_derivation "github.com" "acme" "mycli" (by decide) (by decide)

/-- Claim C9: every Error thrown during an invocation, in either bootstrap
variant, is caught at the single top-level boundary and converted into
exactly one reported failure whose text is the error's message; the
boundary runs the underlying action exactly once and returns the report
instead of propagating the error. -/
theorem boundary_reports_error_message (env env2 : Env) (cmd : String)
    (getArgs : Except Thrown (List String)) (msg msg2 : String)
    (hrun : (execute_rust_binary_action env cmd).result = .error (.err msg))
    (hinv : (executeRustBinaryAction env2 getArgs).result = .error (.err msg2)) :
    run env cmd = (execute_rust_binary_action env cmd, some msg)
    ∧ invokeWith env2 getArgs = (executeRustBinaryAction env2 getArgs, some msg2) := by
  constructor
  · simp only [run]
    rw [hrun]
    rfl
  · simp only [invokeWith]
    rw [hinv]
    rfl

theorem boundary_reports_error_message_witness :
    run envOther "prepare" =
      (execute_rust_binary_action envOther "prepare",
       some ("Unsupported platform: " ++ envOther.platform))
    ∧ invokeWith envOther (.ok []) =
      (executeRustBinaryAction envOther (.ok []),
       some ("Unsupported platform: " ++ envOther.platform)) :=
  boundary_reports_error_message envOther envOther "prepare" (.ok [])
    ("Unsupported platform: " ++ envOther.platform)
    ("Unsupported platform: " ++ envOther.platform)
    (by decide) (by decide)

/-- Claim C10: for every invocation whose underlying async action rejects with a
value that is not an Error instance, the top-level catch handler of either
bootstrap variant reports no failure at all: the rejection is silently
swallowed. -/
theorem non_error_rejection_swallowed (env env2 : Env) (cmd : String)
    (getArgs : Except Thrown (List String)) (v w : String)
    (h : (execute_rust_binary_action env cmd).result = .error (.nonError v))
    (h2 : (executeRustBinaryAction env2 getArgs).result = .error (.nonError w)) :
    (run env cmd).2 = none ∧ (invokeWith env2 getArgs).2 = none := by
  constructor
  · simp only [run]
    rw [h]
    rfl
  · simp only [invokeWith]
    rw [h2]
    rfl

theorem non_error_rejection_swallowed_witness :
    (run envNonError "prepare").2 = none ∧ (invokeWith envNonError (.ok [])).2 = none :=
  non_error_rejection_swallowed envNonError envNonError "prepare" (.ok [])
    "string rejection" "string rejection" (by decide) (by decide)

/-- Claim C1: for every invocation with a supported platform where the cache
lookup for the (organisation/repository, version) key returns a cached
directory, the resolution of either bootstrap variant performs no
download, no extraction and no cache registration: it proceeds directly
from the manifest read to executing the path built from the cached
directory, leaving the cache unchanged. -/
theorem cache_hit_short_circuits (env : Env) (cmd : String) (args : List String)
    (pkg : Manifest) (p : String)
    (hplat : env.platform = "win32" ∨ env.platform = "darwin" ∨ env.platform = "linux")
    (hm : env.manifest = .ok pkg)
    (hfind : find env.cache (githubOrgAndNameOf pkg.repository) pkg.version = p)
    (hp : p ≠ "") :
    (execute_rust_binary_action env cmd).trace
        = [.readManifest, .exec (joinPath p pkg.name) [cmd]]
    ∧ (executeRustBinaryAction env (.ok args)).trace
        = [.readManifest, .exec (joinPath p pkg.binName) args]
    ∧ (∀ u, Effect.download u ∉ (execute_rust_binary_action env cmd).trace)
    ∧ (∀ u, Effect.download u ∉ (executeRustBinaryAction env (.ok args)).trace)
    ∧ (∀ a d, Effect.extractTar a d ∉ (execute_rust_binary_action env cmd).trace)
    ∧ (∀ a d, Effect.extractTar a d ∉ (executeRustBinaryAction env (.ok args)).trace)
    ∧ (∀ f n k v, Effect.cacheFile f n k v ∉ (execute_rust_binary_action env cmd).trace)
    ∧ (∀ f n k v, Effect.cacheFile f n k v ∉ (executeRustBinaryAction env (.ok args)).trace)
    ∧ (execute_rust_binary_action env cmd).cache = env.cache
    ∧ (executeRustBinaryAction env (.ok args)).cache = env.cache := by
  rw [execute_hit_eq env cmd pkg p hplat hm hfind hp,
    rba_hit_eq env args pkg p hplat hm hfind hp]
  refine ⟨rfl, rfl, ?_, ?_, ?_, ?_, ?_, ?_, rfl, rfl⟩ <;> intros <;> simp

theorem cache_hit_short_circuits_witness :
    (execute_rust_binary_action envHit "prepare").trace
        = [.readManifest,
           .exec (joinPath "/opt/toolcache/mycli/1.2.3" acmeManifest.name) ["prepare"]]
    ∧ (executeRustBinaryAction envHit (.ok ["prepare"])).trace
        = [.readManifest,
           .exec (joinPath "/opt/toolcache/mycli/1.2.3" acmeManifest.binName) ["prepare"]]
    ∧ (∀ u, Effect.download u ∉ (execute_rust_binary_action envHit "prepare").trace)
    ∧ (∀ u, Effect.download u ∉ (executeRustBinaryAction envHit (.ok ["prepare"])).trace)
    ∧ (∀ a d, Effect.extractTar a d ∉ (execute_rust_binary_action envHit "prepare").trace)
    ∧ (∀ a d, Effect.extractTar a d ∉ (executeRustBinaryAction envHit (.ok ["prepare"])).trace)
    ∧ (∀ f n k v, Effect.cacheFile f n k v ∉ (execute_rust_binary_action envHit "prepare").trace)
    ∧ (∀ f n k v, Effect.cacheFile f n k v
        ∉ (executeRustBinaryAction envHit (.ok ["prepare"])).trace)
    ∧ (execute_rust_binary_action envHit "prepare").cache = envHit.cache
    ∧ (executeRustBinaryAction envHit (.ok ["prepare"])).cache = envHit.cache :=
  cache_hit_short_circuits envHit "prepare" ["prepare"] acmeManifest
    "/opt/toolcache/mycli/1.2.3" (Or.inr (Or.inr rfl)) rfl (by decide) (by decide)

/-- Claim C2: for every invocation with a supported platform where the cache
lookup for the (organisation/repository, version) key returns no entry and
the external primitives succeed, the resolution of either bootstrap
variant performs exactly one download, exactly one tar extraction and
exactly one cache registration under that same key, and a subsequent
invocation of the same variant against the resulting cache resolves to
the same stable cached path with no further download, extraction or
registration and an unchanged cache. -/
theorem cache_miss_single_download_then_stable (env : Env) (cmd : String)
    (args : List String) (pkg : Manifest) (dp ep cp dp2 ep2 cp2 : String)
    (hplat : env.platform = "win32" ∨ env.platform = "darwin" ∨ env.platform = "linux")
    (hm : env.manifest = .ok pkg)
    (hfind : find env.cache (githubOrgAndNameOf pkg.repository) pkg.version = "")
    (hdl : env.downloadTool
      (releaseUrlFor (githubOrgAndNameOf pkg.repository) pkg.version pkg.name env.platform)
      = .ok dp)
    (hex : env.extractTar dp env.runnerTemp = .ok ep)
    (hcf : env.cacheFile (joinPath ep (binaryNameFor env.platform pkg.name))
      (binaryNameFor env.platform pkg.name) (githubOrgAndNameOf pkg.repository) pkg.version
      = .ok cp)
    (hcp : cp ≠ "")
    (hdl2 : env.downloadTool
      (releaseUrlFor (githubOrgAndNameOf pkg.repository) pkg.version pkg.binName env.platform)
      = .ok dp2)
    (hex2 : env.extractTar dp2 env.runnerTemp = .ok ep2)
    (hcf2 : env.cacheFile (joinPath ep2 (binaryNameFor env.platform pkg.binName))
      (binaryNameFor env.platform pkg.binName) (githubOrgAndNameOf pkg.repository) pkg.version
      = .ok cp2)
    (hcp2 : cp2 ≠ "") :
    ((execute_rust_binary_action env cmd).trace.filter Effect.isDownload).length = 1
    ∧ ((executeRustBinaryAction env (.ok args)).trace.filter Effect.isDownload).length = 1
    ∧ ((execute_rust_binary_action env cmd).trace.filter Effect.isExtraction).length = 1
    ∧ ((executeRustBinaryAction env (.ok args)).trace.filter Effect.isExtraction).length = 1
    ∧ (execute_rust_binary_action env cmd).trace.filter Effect.isCacheRegistration
        = [Effect.cacheFile (joinPath ep (binaryNameFor env.platform pkg.name))
            (binaryNameFor env.platform pkg.name) (githubOrgAndNameOf pkg.repository)
            pkg.version]
    ∧ (executeRustBinaryAction env (.ok args)).trace.filter Effect.isCacheRegistration
        = [Effect.cacheFile (joinPath ep2 (binaryNameFor env.platform pkg.binName))
            (binaryNameFor env.platform pkg.binName) (githubOrgAndNameOf pkg.repository)
            pkg.version]
    ∧ Effect.exec (joinPath cp pkg.name) [cmd] ∈ (execute_rust_binary_action env cmd).trace
    ∧ Effect.exec (joinPath cp2 pkg.binName) args ∈ (executeRustBinaryAction env (.ok args)).trace
    ∧ (execute_rust_binary_action
        (withCache env (execute_rust_binary_action env cmd).cache) cmd).trace
        = [.readManifest, .exec (joinPath cp pkg.name) [cmd]]
    ∧ (executeRustBinaryAction
        (withCache env (executeRustBinaryAction env (.ok args)).cache) (.ok args)).trace
        = [.readManifest, .exec (joinPath cp2 pkg.binName) args]
    ∧ (execute_rust_binary_action
        (withCache env (execute_rust_binary_action env cmd).cache) cmd).cache
        = (execute_rust_binary_action env cmd).cache
    ∧ (executeRustBinaryAction
        (withCache env (executeRustBinaryAction env (.ok args)).cache) (.ok args)).cache
        = (executeRustBinaryAction env (.ok args)).cache := by
  have h1 := execute_miss_eq env cmd pkg dp ep cp hplat hm hfind hdl hex hcf
  have h2 := rba_miss_eq env args pkg dp2 ep2 cp2 hplat hm hfind hdl2 hex2 hcf2
  have hfind2 : find (withCache env (execute_rust_binary_action env cmd).cache).cache
      (githubOrgAndNameOf pkg.repository) pkg.version = cp := by
    rw [h1]
    simp [withCache, find]
  have hfind3 : find (withCache env (executeRustBinaryAction env (.ok args)).cache).cache
      (githubOrgAndNameOf pkg.repository) pkg.version = cp2 := by
    rw [h2]
    simp [withCache, find]
  have h3 := execute_hit_eq (withCache env (execute_rust_binary_action env cmd).cache)
    cmd pkg cp hplat hm hfind2 hcp
  have h4 := rba_hit_eq (withCache env (executeRustBinaryAction env (.ok args)).cache)
    args pkg cp2 hplat hm hfind3 hcp2
  rw [h3, h4, h1, h2]
  refine ⟨?_, ?_, ?_, ?_, ?_, ?_, ?_, ?_, rfl, rfl, rfl, rfl⟩ <;>
    simp [Effect.isDownload, Effect.isExtraction, Effect.isCacheRegistration]

theorem cache_miss_single_download_then_stable_witness :
    ((execute_rust_binary_action envMiss "prepare").trace.filter Effect.isDownload).length = 1
    ∧ ((executeRustBinaryAction envMiss (.ok ["prepare"])).trace.filter
        Effect.isDownload).length = 1
    ∧ ((execute_rust_binary_action envMiss "prepare").trace.filter Effect.isExtraction).length = 1
    ∧ ((executeRustBinaryAction envMiss (.ok ["prepare"])).trace.filter
        Effect.isExtraction).length = 1
    ∧ (execute_rust_binary_action envMiss "prepare").trace.filter Effect.isCacheRegistration
        = [Effect.cacheFile
            (joinPath "/tmp" (binaryNameFor envMiss.platform acmeManifest.name))
            (binaryNameFor envMiss.platform acmeManifest.name)
            (githubOrgAndNameOf acmeManifest.repository) acmeManifest.version]
    ∧ (executeRustBinaryAction envMiss (.ok ["prepare"])).trace.filter
        Effect.isCacheRegistration
        = [Effect.cacheFile
            (joinPath "/tmp" (binaryNameFor envMiss.platform acmeManifest.binName))
            (binaryNameFor envMiss.platform acmeManifest.binName)
            (githubOrgAndNameOf acmeManifest.repository) acmeManifest.version]
    ∧ Effect.exec (joinPath "/opt/toolcache/mycli/1.2.3" acmeManifest.name) ["prepare"]
        ∈ (execute_rust_binary_action envMiss "prepare").trace
    ∧ Effect.exec (joinPath "/opt/toolcache/mycli/1.2.3" acmeManifest.binName) ["prepare"]
        ∈ (executeRustBinaryAction envMiss (.ok ["prepare"])).trace
    ∧ (execute_rust_binary_action
        (withCache envMiss (execute_rust_binary_action envMiss "prepare").cache) "prepare").trace
        = [.readManifest,
           .exec (joinPath "/opt/toolcache/mycli/1.2.3" acmeManifest.name) ["prepare"]]
    ∧ (executeRustBinaryAction
        (withCache envMiss (executeRustBinaryAction envMiss (.ok ["prepare"])).cache)
        (.ok ["prepare"])).trace
        = [.readManifest,
           .exec (joinPath "/opt/toolcache/mycli/1.2.3" acmeManifest.binName) ["prepare"]]
    ∧ (execute_rust_binary_action
        (withCache envMiss (execute_rust_binary_action envMiss "prepare").cache) "prepare").cache
        = (execute_rust_binary_action envMiss "prepare").cache
    ∧ (executeRustBinaryAction
        (withCache envMiss (executeRustBinaryAction envMiss (.ok ["prepare"])).cache)
        (.ok ["prepare"])).cache
        = (executeRustBinaryAction envMiss (.ok ["prepare"])).cache :=
  cache_miss_single_download_then_stable envMiss "prepare" ["prepare"] acmeManifest
    "/tmp/downloaded.tar.gz" "/tmp" "/opt/toolcache/mycli/1.2.3"
    "/tmp/downloaded.tar.gz" "/tmp" "/opt/toolcache/mycli/1.2.3"
    (Or.inr (Or.inr rfl)) rfl (by decide) rfl rfl rfl (by decide) rfl rfl rfl (by decide)

/-- Claim C3: for every invocation reaching the cache-miss path, the downloaded
release URL is exactly the deterministic pattern built from the
organisation/repository identifier, the version, the binary name and the
platform, with the literal x64 suffix and tar.gz extension. -/
theorem release_url_matches_pattern (env : Env) (cmd : String) (pkg : Manifest)
    (orgRepo : String)
    (hplat : env.platform = "win32" ∨ env.platform = "darwin" ∨ env.platform = "linux")
    (hm : env.manifest = .ok pkg)
    (hkey : githubOrgAndNameOf pkg.repository = orgRepo)
    (hfind : find env.cache orgRepo pkg.version = "") :
    Effect.download ("https://github.com/" ++ orgRepo ++ "/releases/download/v"
        ++ pkg.version ++ "/" ++ pkg.name ++ "-v" ++ pkg.version ++ "-" ++ env.platform
        ++ "-x64.tar.gz")
      ∈ (execute_rust_binary_action env cmd).trace := by
  unfold execute_rust_binary_action
  rw [if_neg (not_unsupported env.platform hplat), hm]
  simp only [hkey, hfind, if_pos rfl, if_true]
  cases env.downloadTool (releaseUrlFor orgRepo pkg.version pkg.name env.platform) with
  | error e => simp [releaseUrlFor]
  | ok dp =>
    dsimp only
    cases env.extractTar dp env.runnerTemp with
    | error e => simp [releaseUrlFor]
    | ok ep =>
      dsimp only
      cases env.cacheFile (joinPath ep (binaryNameFor env.platform pkg.name))
          (binaryNameFor env.platform pkg.name) orgRepo pkg.version with
      | error e => simp [releaseUrlFor]
      | ok cp => simp [releaseUrlFor]

theorem release_url_matches_pattern_witness :
    Effect.download ("https://github.com/" ++ "acme/mycli" ++ "/releases/download/v"
        ++ acmeManifest.version ++ "/" ++ acmeManifest.name ++ "-v" ++ acmeManifest.version
        ++ "-" ++ envMiss.platform ++ "-x64.tar.gz")
      ∈ (execute_rust_binary_action envMiss "prepare").trace :=
  release_url_matches_pattern envMiss "prepare" acmeManifest "acme/mycli"
    (Or.inr (Or.inr rfl)) rfl (by decide) (by decide)

/-- Claim C4: for every Windows invocation that reaches the execution step on
the cache-miss path, in both implementation variants, the executable path
passed to the process spawn equals the cached directory joined with the
base binary name — no .exe suffix is appended — although the file
registered into the cache was named with the .exe suffix. -/
theorem exec_path_uses_base_name (env : Env) (cmd : String) (args : List String)
    (pkg : Manifest) (dp ep cp dp2 ep2 cp2 : String)
    (hplat32 : env.platform = "win32")
    (hm : env.manifest = .ok pkg)
    (hfind : find env.cache (githubOrgAndNameOf pkg.repository) pkg.version = "")
    (hdl : env.downloadTool
      (releaseUrlFor (githubOrgAndNameOf pkg.repository) pkg.version pkg.name env.platform)
      = .ok dp)
    (hex : env.extractTar dp env.runnerTemp = .ok ep)
    (hcf : env.cacheFile (joinPath ep (pkg.name ++ ".exe")) (pkg.name ++ ".exe")
      (githubOrgAndNameOf pkg.repository) pkg.version = .ok cp)
    (hdl2 : env.downloadTool
      (releaseUrlFor (githubOrgAndNameOf pkg.repository) pkg.version pkg.binName env.platform)
      = .ok dp2)
    (hex2 : env.extractTar dp2 env.runnerTemp = .ok ep2)
    (hcf2 : env.cacheFile (joinPath ep2 (pkg.binName ++ ".exe")) (pkg.binName ++ ".exe")
      (githubOrgAndNameOf pkg.repository) pkg.version = .ok cp2) :
    (execute_rust_binary_action env cmd).trace
      = [.readManifest,
         .download (releaseUrlFor (githubOrgAndNameOf pkg.repository) pkg.version pkg.name
           env.platform),
         .extractTar dp env.runnerTemp,
         .cacheFile (joinPath ep (pkg.name ++ ".exe")) (pkg.name ++ ".exe")
           (githubOrgAndNameOf pkg.repository) pkg.version,
         .exec (joinPath cp pkg.name) [cmd]]
    ∧ (executeRustBinaryAction env (.ok args)).trace
      = [.readManifest,
         .download (releaseUrlFor (githubOrgAndNameOf pkg.repository) pkg.version pkg.binName
           env.platform),
         .extractTar dp2 env.runnerTemp,
         .cacheFile (joinPath ep2 (pkg.binName ++ ".exe")) (pkg.binName ++ ".exe")
           (githubOrgAndNameOf pkg.repository) pkg.version,
         .exec (joinPath cp2 pkg.binName) args]
    ∧ (∀ a, Effect.exec (joinPath cp (pkg.name ++ ".exe")) a
        ∉ (execute_rust_binary_action env cmd).trace)
    ∧ (∀ a, Effect.exec (joinPath cp2 (pkg.binName ++ ".exe")) a
        ∉ (executeRustBinaryAction env (.ok args)).trace) := by
  have hbn : binaryNameFor env.platform pkg.name = pkg.name ++ ".exe" := by
    rw [hplat32]
    simp [binaryNameFor]
  have hbn2 : binaryNameFor env.platform pkg.binName = pkg.binName ++ ".exe" := by
    rw [hplat32]
    simp [binaryNameFor]
  have hcfa : env.cacheFile (joinPath ep (binaryNameFor env.platform pkg.name))
      (binaryNameFor env.platform pkg.name) (githubOrgAndNameOf pkg.repository) pkg.version
      = .ok cp := by
    rw [hbn]
    exact hcf
  have hcfb : env.cacheFile (joinPath ep2 (binaryNameFor env.platform pkg.binName))
      (binaryNameFor env.platform pkg.binName) (githubOrgAndNameOf pkg.repository) pkg.version
      = .ok cp2 := by
    rw [hbn2]
    exact hcf2
  have h1 := execute_miss_eq env cmd pkg dp ep cp (Or.inl hplat32) hm hfind hdl hex hcfa
  have h2 := rba_miss_eq env args pkg dp2 ep2 cp2 (Or.inl hplat32) hm hfind hdl2 hex2 hcfb
  rw [h1, h2, hbn, hbn2]
  refine ⟨rfl, rfl, ?_, ?_⟩ <;> intro a <;>
    simp [joinPath_exe_ne cp pkg.name, joinPath_exe_ne cp2 pkg.binName]

theorem exec_path_uses_base_name_witness :
    (execute_rust_binary_action envWin "prepare").trace
      = [.readManifest,
         .download (releaseUrlFor (githubOrgAndNameOf acmeManifest.repository)
           acmeManifest.version acmeManifest.name envWin.platform),
         .extractTar "/tmp/downloaded.tar.gz" envWin.runnerTemp,
         .cacheFile (joinPath "/tmp" (acmeManifest.name ++ ".exe")) (acmeManifest.name ++ ".exe")
           (githubOrgAndNameOf acmeManifest.repository) acmeManifest.version,
         .exec (joinPath "/opt/toolcache/mycli/1.2.3" acmeManifest.name) ["prepare"]]
    ∧ (executeRustBinaryAction envWin (.ok ["prepare"])).trace
      = [.readManifest,
         .download (releaseUrlFor (githubOrgAndNameOf acmeManifest.repository)
           acmeManifest.version acmeManifest.binName envWin.platform),
         .extractTar "/tmp/downloaded.tar.gz" envWin.runnerTemp,
         .cacheFile (joinPath "/tmp" (acmeManifest.binName ++ ".exe"))
           (acmeManifest.binName ++ ".exe")
           (githubOrgAndNameOf acmeManifest.repository) acmeManifest.version,
         .exec (joinPath "/opt/toolcache/mycli/1.2.3" acmeManifest.binName) ["prepare"]]
    ∧ (∀ a, Effect.exec (joinPath "/opt/toolcache/mycli/1.2.3" (acmeManifest.name ++ ".exe")) a
        ∉ (execute_rust_binary_action envWin "prepare").trace)
    ∧ (∀ a, Effect.exec (joinPath "/opt/toolcache/mycli/1.2.3" (acmeManifest.binName ++ ".exe")) a
        ∉ (executeRustBinaryAction envWin (.ok ["prepare"])).trace) :=
  exec_path_uses_base_name envWin "prepare" ["prepare"] acmeManifest
    "/tmp/downloaded.tar.gz" "/tmp" "/opt/toolcache/mycli/1.2.3"
    "/tmp/downloaded.tar.gz" "/tmp" "/opt/toolcache/mycli/1.2.3"
    rfl rfl (by decide) rfl rfl rfl rfl rfl rfl

/-- Claim C5 counterexample: an invocation of the argument-building variant with
a required input absent, on a cache miss, reports the missing-input
failure, yet its trace contains a download: the failure does not occur
before all I/O, contradicting the claim as stated. -/
theorem missing_input_before_io_counterexample :
    (invokeWith envMiss (prepareArgs [])).2
        = some ("Input required and not supplied: " ++ "bump")
    ∧ Effect.download
        "https://github.com/acme/mycli/releases/download/v1.2.3/mycli-v1.2.3-linux-x64.tar.gz"
        ∈ (executeRustBinaryAction envMiss (prepareArgs [])).trace := by
  decide

/-- Claim C5, amended: for every invocation of the argument-building variant in
which the required input bump is absent, the invocation fails during the
argument-building step — after artifact resolution, not before all I/O —
with a reported failure message identifying the missing input's name, and
no process is spawned. -/
theorem missing_input_reported_no_spawn (env : Env) (inputs : List (String × String))
    (pkg : Manifest) (p : String)
    (hplat : env.platform = "win32" ∨ env.platform = "darwin" ∨ env.platform = "linux")
    (hm : env.manifest = .ok pkg)
    (hfind : find env.cache (githubOrgAndNameOf pkg.repository) pkg.version = p)
    (hp : p ≠ "")
    (hlookup : inputs.lookup "bump" = none) :
    (invokeWith env (prepareArgs inputs)).2
        = some ("Input required and not supplied: " ++ "bump")
    ∧ (∀ pa a, Effect.exec pa a ∉ (executeRustBinaryAction env (prepareArgs inputs)).trace) := by
  have hargs : prepareArgs inputs
      = .error (.err ("Input required and not supplied: " ++ "bump")) := by
    unfold prepareArgs getInput
    rw [hlookup]
    rfl
  have h1 := rba_hit_err_eq env (.err ("Input required and not supplied: " ++ "bump"))
    pkg p hplat hm hfind hp
  constructor
  · rw [hargs]
    simp only [invokeWith]
    rw [h1]
    rfl
  · rw [hargs, h1]
    intro pa a
    simp

theorem missing_input_reported_no_spawn_witness :
    (invokeWith envHit (prepareArgs [])).2
        = some ("Input required and not supplied: " ++ "bump")
    ∧ (∀ pa a, Effect.exec pa a ∉ (executeRustBinaryAction envHit (prepareArgs [])).trace) :=
  missing_input_reported_no_spawn envHit [] acmeManifest "/opt/toolcache/mycli/1.2.3"
    (Or.inr (Or.inr rfl)) rfl (by decide) (by decide) rfl
